import Mathlib

/-!
# Verification of the Trinity Morris-Lecar notebook

Shallow embedding of the computational core of `main.ipynb`:

* `morris_lecar` — the ODE right-hand side (Dynamics Evaluator);
* `default_parameters` / `solveModelParams` — the parameter assembly;
* `solve_model` — the simulation driver (the external scipy `odeint`
  integrator is abstracted as a function argument);
* `analyze_data` — the critical-point (sign-change) extractor, including
  the numpy broadcasting and indexing semantics of the operations it uses.

Real-valued float computations are embedded over `ℝ`; the extractor is
polymorphic over a linear ordered ring so that it can be evaluated on
concrete integer inputs.
-/

/-- Error outcomes a Python/numpy evaluation can raise.  `valueError`
models numpy broadcast failure (`ValueError: operands could not be
broadcast together`), `indexError` models out-of-range array indexing. -/
inductive PyError where
  | valueError : PyError
  | indexError : PyError
deriving DecidableEq, Repr

/-- A critical point record `{'V': V[i], 'w': w[i], 't': t[i]}` as built by
`analyze_data`. -/
structure CriticalPoint (α : Type) where
  V : α
  w : α
  t : α
deriving DecidableEq, Repr

/-- `np.sign`: `-1` for negatives, `1` for positives, `0` for zero. -/
def npSign {α : Type} [LinearOrderedRing α] (x : α) : α :=
  if x < 0 then -1 else if 0 < x then 1 else 0

/-- Elementwise subtraction `V - w` of two 1-D numpy arrays, with numpy's
broadcasting rule: equal lengths subtract elementwise, a length-1 array is
broadcast against the other, and any other length mismatch raises
`ValueError`. -/
def npSub {α : Type} [LinearOrderedRing α] (V w : List α) :
    Except PyError (List α) :=
  if V.length = w.length then
    .ok (List.zipWith (fun a b => a - b) V w)
  else if w.length = 1 then
    .ok (V.map (fun a => a - w.getD 0 0))
  else if V.length = 1 then
    .ok (w.map (fun b => V.getD 0 0 - b))
  else .error PyError.valueError

/-- 1-D numpy array indexing: in-range returns the element, out-of-range
raises `IndexError`. -/
def npIndex {α : Type} (xs : List α) (i : ℕ) : Except PyError α :=
  if h : i < xs.length then .ok (xs.get ⟨i, h⟩) else .error PyError.indexError

/-- `np.where(np.diff(np.sign(differences)) != 0)[0]`: the indices `i`
(in increasing order) at which the sign of `differences` changes between
positions `i` and `i + 1`.  `np.diff` of an array of length `n` has length
`n - 1`, so the produced indices range over `0 ≤ i < n - 1`. -/
def cross_indices {α : Type} [LinearOrderedRing α] (differences : List α) :
    List ℕ :=
  (List.range (differences.length - 1)).filter
    (fun i => npSign (differences.getD (i + 1) 0) - npSign (differences.getD i 0) ≠ 0)

/-- The list comprehension
`[{'V': V[i], 'w': w[i], 't': t[i]} for i in cross_indices]`: each index is
looked up in the three arrays (raising `IndexError` if out of range) and a
`CriticalPoint` record is built. -/
def collectPoints {α : Type} (V w t : List α) :
    List ℕ → Except PyError (List (CriticalPoint α))
  | [] => .ok []
  | i :: is => do
    let Vi ← npIndex V i
    let wi ← npIndex w i
    let ti ← npIndex t i
    let rest ← collectPoints V w t is
    pure (⟨Vi, wi, ti⟩ :: rest)

/-- `analyze_data` from the notebook: computes `differences = V - w`,
finds the indices right before sign changes, and collects the critical
points `{V[i], w[i], t[i]}` at those indices. -/
def analyze_data {α : Type} [LinearOrderedRing α] (V w t : List α) :
    Except PyError (List (CriticalPoint α)) := do
  let differences ← npSub V w
  collectPoints V w t (cross_indices differences)

/-- The parameter dictionary of the Morris-Lecar model, as one record.
The notebook passes a `Dict[str, float]` with exactly these keys. -/
structure MLParams where
  C : ℝ
  V_Ca : ℝ
  V_K : ℝ
  V_L : ℝ
  g_Ca : ℝ
  g_K : ℝ
  g_L : ℝ
  phi : ℝ
  V1 : ℝ
  V2 : ℝ
  V3 : ℝ
  V4 : ℝ
  I_ext : ℝ
  V0 : ℝ
  w0 : ℝ

/-- The Morris-Lecar right-hand side from the notebook: given the state
`(V, w)`, the time `t` (unused, required by the solver signature) and the
parameter record, returns the pair of derivatives `(dV/dt, dw/dt)`. -/
noncomputable def morris_lecar (V_w : ℝ × ℝ) (t : ℝ) (params : MLParams) :
    ℝ × ℝ :=
  let V := V_w.1
  let w := V_w.2
  let I_ext := params.I_ext
  let m_inf := 0.5 * (1.0 + Real.tanh ((V - params.V1) / params.V2))
  let w_inf := 0.5 * (1.0 + Real.tanh ((V - params.V3) / params.V4))
  let tau_w := 1 / (params.phi * Real.cosh ((V - params.V3) / (2 * params.V4)))
  let dV_dt := (I_ext - params.g_Ca * m_inf * (V - params.V_Ca)
      - params.g_K * w * (V - params.V_K) - params.g_L * (V - params.V_L)) / params.C
  let dw_dt := params.phi * (w_inf - w) / tau_w
  (dV_dt, dw_dt)

/-- The default parameters and initial conditions of the notebook's
`default_parameters` function.  `V0` is written exactly as in the source:
`-70*(10**-3)`. -/
noncomputable def default_parameters : MLParams where
  C := 20
  V_Ca := 120
  V_K := -84
  V_L := -60
  g_Ca := 4.4
  g_K := 8
  g_L := 2
  phi := 0.04
  V1 := -1.2
  V2 := 18
  V3 := 2
  V4 := 30
  I_ext := 0.1
  V0 := -70 * (10 : ℝ) ^ (-3 : ℤ)
  w0 := 0.0

/-- The parameter record `solve_model` builds: the defaults with the
key `I_ext` updated to the supplied value. -/
noncomputable def solveModelParams (I_ext : ℝ) : MLParams :=
  { default_parameters with I_ext := I_ext }

/-- `np.linspace a b n`: `n` evenly spaced points from `a` to `b`
inclusive, with step `(b - a) / (n - 1)` (integer subtraction `n - 1`,
as in numpy). -/
noncomputable def linspace (a b : ℝ) (n : ℕ) : List ℝ :=
  (List.range n).map (fun (i : ℕ) => a + (b - a) * (i : ℝ) / ((n - 1 : ℕ) : ℝ))

/-- The type of the external ODE integrator (`scipy.integrate.odeint` as
called in the notebook, with `full_output` left at its default `0`): it
receives the right-hand side, the initial state, the output time grid and
the parameter record, and returns one `(V, w)` row per requested time
point.  scipy returns this array unconditionally; integration failures
surface only as a printed `ODEintWarning`, never through the return
value. -/
abbrev Integrator :=
  ((ℝ × ℝ) → ℝ → MLParams → ℝ × ℝ) → (ℝ × ℝ) → List ℝ → MLParams → List (ℝ × ℝ)

/-- `solve_model` from the notebook: builds the time grid
`np.linspace(0, 5000, 10000)`, assembles the parameters, integrates from
`(params['V0'], params['w0'])` and returns `(t, sol[:, 0], sol[:, 1])`.
The external scipy integrator is passed as an argument. -/
noncomputable def solve_model (odeint : Integrator) (I_ext : ℝ) :
    List ℝ × List ℝ × List ℝ :=
  let t := linspace 0 5000 10000
  let params := solveModelParams I_ext
  let initial_conditions := (params.V0, params.w0)
  let sol := odeint morris_lecar initial_conditions t params
  (t, sol.map Prod.fst, sol.map Prod.snd)

/-- The outcome of one run of the external lsoda integrator: either a
converged solution table, or a failure carrying lsoda's diagnostic message
together with the full-shape array scipy still produces in that case.
With `full_output = 0` (the notebook's call), scipy reports failure only
by emitting an `ODEintWarning`; the array is returned to the caller either
way. -/
inductive SolverOutcome where
  | ok : List (ℝ × ℝ) → SolverOutcome
  | fail : String → List (ℝ × ℝ) → SolverOutcome

/-- The array the notebook's call `sol = odeint(...)` binds for a given
solver outcome: with default arguments scipy returns the table in both
the converged and the failed case. -/
def odeintReturnedArray : SolverOutcome → List (ℝ × ℝ)
  | .ok tab => tab
  | .fail _ tab => tab

/-- `solve_model` run against an integrator whose run has the given
outcome. -/
noncomputable def solve_modelOutcome (outcome : SolverOutcome) (I_ext : ℝ) :
    List ℝ × List ℝ × List ℝ :=
  solve_model (fun _ _ _ _ => odeintReturnedArray outcome) I_ext

/-- The crossing indices exactly as the spec words them: the indices `i`
with `0 ≤ i < len - 1` at which `sign(V[i] - w[i])` differs from
`sign(V[i+1] - w[i+1])`. -/
def specCrossingIndices {α : Type} [LinearOrderedRing α] (V w : List α) : List ℕ :=
  (List.range (V.length - 1)).filter
    (fun i => npSign (V.getD i 0 - w.getD i 0) ≠ npSign (V.getD (i + 1) 0 - w.getD (i + 1) 0))

/-- A trivial integrator (returns the initial state at every requested
time point); it satisfies the scipy shape contract of one output row per
time point. -/
def constIntegrator : Integrator := fun _ y0 ts _ => ts.map (fun _ => y0)

/-- A concrete non-converged solver run: lsoda gives up with its standard
diagnostic, and scipy (called as in the notebook, with `full_output` left
at `0`) still hands back a full-shape 10000-row array. -/
noncomputable def failedRunOutcome : SolverOutcome :=
  SolverOutcome.fail ("Excess work done on this call (perhaps wrong Dfun type).")
    ((linspace 0 5000 10000).map (fun _ => (default_parameters.V0, default_parameters.w0)))

theorem npIndex_eq_ok {α : Type} [Zero α] {xs : List α} {i : ℕ}
    (h : i < xs.length) : npIndex xs i = .ok (xs.getD i 0) := by
  rw [npIndex, dif_pos h, List.getD_eq_getElem xs 0 h]
  rfl

theorem collectPoints_eq {α : Type} [Zero α] (V w t : List α) (is : List ℕ)
    (h : ∀ i ∈ is, i < V.length ∧ i < w.length ∧ i < t.length) :
    collectPoints V w t is =
      .ok (is.map (fun i => ⟨V.getD i 0, w.getD i 0, t.getD i 0⟩)) := by
  induction is with
  | nil => rfl
  | cons i is ih =>
    obtain ⟨h1, h2, h3⟩ := h i (List.mem_cons_self i is)
    have hrest := ih (fun j hj => h j (List.mem_cons_of_mem _ hj))
    simp [collectPoints, npIndex_eq_ok h1, npIndex_eq_ok h2, npIndex_eq_ok h3, hrest,
      Except.bind, Except.pure, Bind.bind, Pure.pure]

theorem mem_cross_indices_lt {α : Type} [LinearOrderedRing α] {d : List α}
    {i : ℕ} (h : i ∈ cross_indices d) : i < d.length - 1 :=
  List.mem_range.mp (List.mem_filter.mp h).1

theorem getD_zipWith_sub {α : Type} [LinearOrderedRing α] {V w : List α}
    (hlen : V.length = w.length) {i : ℕ} (h : i < V.length) :
    (List.zipWith (fun a b => a - b) V w).getD i 0 = V.getD i 0 - w.getD i 0 := by
  have h2 : i < w.length := hlen ▸ h
  have hz : i < (List.zipWith (fun a b => a - b) V w).length := by
    rw [List.length_zipWith, ← hlen, min_self]
    exact h
  rw [List.getD_eq_getElem _ 0 hz, List.getD_eq_getElem _ 0 h,
    List.getD_eq_getElem _ 0 h2, List.getElem_zipWith]

theorem cross_indices_zipWith_eq_spec {α : Type} [LinearOrderedRing α]
    {V w : List α} (hlen : V.length = w.length) :
    cross_indices (List.zipWith (fun a b => a - b) V w) = specCrossingIndices V w := by
  unfold cross_indices specCrossingIndices
  rw [List.length_zipWith, ← hlen, min_self]
  refine List.filter_congr ?_
  intro i hi
  have hi1 : i < V.length - 1 := List.mem_range.mp hi
  have hi0 : i < V.length := lt_of_lt_of_le hi1 (Nat.sub_le _ _)
  have hi0' : i + 1 < V.length := by omega
  rw [getD_zipWith_sub hlen hi0, getD_zipWith_sub hlen hi0']
  simp only [decide_eq_decide, sub_ne_zero]
  exact ne_comm

/-- C1: for every state `(V, w)`, time `t` and parameter record,
`morris_lecar` returns exactly the pair `(dV/dt, dw/dt)` with
`dV/dt = (I_ext - g_Ca*m_inf*(V-V_Ca) - g_K*w*(V-V_K) - g_L*(V-V_L))/C`
and `dw/dt = phi*(w_inf - w)/tau_w`, where
`m_inf = 0.5*(1+tanh((V-V1)/V2))`, `w_inf = 0.5*(1+tanh((V-V3)/V4))` and
`tau_w = 1/(phi*cosh((V-V3)/(2*V4)))`; consequently `dw/dt` equals
`(w_inf - w)*phi*phi*cosh((V-V3)/(2*V4))`. -/
theorem morris_lecar_formula (V w t : ℝ) (p : MLParams) :
    morris_lecar (V, w) t p =
      ((p.I_ext - p.g_Ca * (0.5 * (1 + Real.tanh ((V - p.V1) / p.V2))) * (V - p.V_Ca)
          - p.g_K * w * (V - p.V_K) - p.g_L * (V - p.V_L)) / p.C,
        p.phi * (0.5 * (1 + Real.tanh ((V - p.V3) / p.V4)) - w)
          / (1 / (p.phi * Real.cosh ((V - p.V3) / (2 * p.V4)))))
    ∧ (morris_lecar (V, w) t p).2
        = (0.5 * (1 + Real.tanh ((V - p.V3) / p.V4)) - w)
          * p.phi * p.phi * Real.cosh ((V - p.V3) / (2 * p.V4)) := by
  constructor
  · simp only [morris_lecar]
    norm_num
  · simp only [morris_lecar]
    rw [one_div, div_inv_eq_mul]
    norm_num
    ring

/-- C8: the right-hand side is autonomous: `morris_lecar` gives the same
derivatives at any two times for the same state and parameters. -/
theorem morris_lecar_autonomous (V w t1 t2 : ℝ) (p : MLParams) :
    morris_lecar (V, w) t1 p = morris_lecar (V, w) t2 p := rfl

/-- C2: on three equal-length sequences, `analyze_data` returns exactly
the records `{V[i], w[i], t[i]}` for the indices `0 ≤ i < len - 1` at
which `sign(V[i] - w[i])` differs from `sign(V[i+1] - w[i+1])`, reported
at the index before the flip, in strictly increasing index order. -/
theorem analyze_data_spec {α : Type} [LinearOrderedRing α] (V w t : List α)
    (n : ℕ) (hV : V.length = n) (hw : w.length = n) (ht : t.length = n) :
    analyze_data V w t =
      .ok ((specCrossingIndices V w).map
        (fun i => ⟨V.getD i 0, w.getD i 0, t.getD i 0⟩))
    ∧ List.Pairwise (· < ·) (specCrossingIndices V w) := by
  have hlen : V.length = w.length := by rw [hV, hw]
  constructor
  · have hsub : npSub V w = .ok (List.zipWith (fun a b => a - b) V w) := by
      rw [npSub, if_pos hlen]
    have hbounds : ∀ i ∈ cross_indices (List.zipWith (fun a b => a - b) V w),
        i < V.length ∧ i < w.length ∧ i < t.length := by
      intro i hi
      have h1 := mem_cross_indices_lt hi
      rw [List.length_zipWith, ← hlen, min_self] at h1
      omega
    rw [analyze_data, hsub]
    show collectPoints V w t (cross_indices (List.zipWith (fun a b => a - b) V w)) = _
    rw [collectPoints_eq V w t _ hbounds, cross_indices_zipWith_eq_spec hlen]
  · exact (List.pairwise_lt_range _).filter _

/-- Witness for C2 at concrete input: `V = [0, 2]`, `w = [1, 1]`,
`t = [7, 8]` over `ℤ`. -/
theorem analyze_data_spec_witness :
    analyze_data (α := ℤ) [0, 2] [1, 1] [7, 8] =
      .ok ((specCrossingIndices (α := ℤ) [0, 2] [1, 1]).map
        (fun i => ⟨List.getD [0, 2] i 0, List.getD [1, 1] i 0, List.getD [7, 8] i 0⟩))
    ∧ List.Pairwise (· < ·) (specCrossingIndices (α := ℤ) [0, 2] [1, 1]) :=
  analyze_data_spec [0, 2] [1, 1] [7, 8] 2 rfl rfl rfl

/-- C6: the two concrete examples of the spec: `[0,2,0,-2]` against
`[1,1,1,1]` has crossings exactly at indices 0 and 1 (records
`{V:0, w:1, t:0}` and `{V:2, w:1, t:1}`), and `[1,1,1]` against
`[0,0,0]` has none. -/
theorem analyze_data_examples :
    analyze_data (α := ℤ) [0, 2, 0, -2] [1, 1, 1, 1] [0, 1, 2, 3] =
      .ok [⟨0, 1, 0⟩, ⟨2, 1, 1⟩]
    ∧ analyze_data (α := ℤ) [1, 1, 1] [0, 0, 0] [0, 1, 2] = .ok [] :=
  ⟨rfl, rfl⟩

/-- Counterexample to C5: with `V = [1,1,1]`, `w = [0,0,0]` and the
mismatched `t = [0,1]` (length 2 against 3), `analyze_data` returns
normally with an empty result instead of raising `ValueError`: the
length of `t` is never validated. -/
theorem analyze_data_t_mismatch_ce :
    analyze_data (α := ℤ) [1, 1, 1] [0, 0, 0] [0, 1] = .ok [] := rfl

/-- C5 as amended: `analyze_data` raises `ValueError` exactly from the
numpy broadcast failure of `V - w`, i.e. when `V` and `w` have different
lengths and neither has length 1; `t`'s length is never validated; and on
every triple of equal-length inputs it returns normally. -/
theorem analyze_data_error_conditions {α : Type} [LinearOrderedRing α] :
    (∀ V w t : List α, V.length ≠ w.length → V.length ≠ 1 → w.length ≠ 1 →
      analyze_data V w t = .error PyError.valueError)
    ∧ (∀ V w t : List α, V.length = w.length → V.length = t.length →
      ∃ r, analyze_data V w t = .ok r) := by
  constructor
  · intro V w t hne hV1 hw1
    have hsub : npSub V w = .error PyError.valueError := by
      rw [npSub, if_neg hne, if_neg hw1, if_neg hV1]
    rw [analyze_data, hsub]
    rfl
  · intro V w t h1 h2
    have hsub : npSub V w = .ok (List.zipWith (fun a b => a - b) V w) := by
      rw [npSub, if_pos h1]
    have hbounds : ∀ i ∈ cross_indices (List.zipWith (fun a b => a - b) V w),
        i < V.length ∧ i < w.length ∧ i < t.length := by
      intro i hi
      have hb := mem_cross_indices_lt hi
      rw [List.length_zipWith, ← h1, min_self] at hb
      omega
    have heq : analyze_data V w t =
        .ok ((cross_indices (List.zipWith (fun a b => a - b) V w)).map
          (fun i => ⟨V.getD i 0, w.getD i 0, t.getD i 0⟩)) := by
      rw [analyze_data, hsub]
      show collectPoints V w t (cross_indices (List.zipWith (fun a b => a - b) V w)) = _
      exact collectPoints_eq V w t _ hbounds
    exact ⟨_, heq⟩

/-- Witness for the amended C5: the `ValueError` branch at
`V = [1, 2]`, `w = []`, and the normal return at `[5], [6], [7]`. -/
theorem analyze_data_error_conditions_witness :
    analyze_data (α := ℤ) [1, 2] [] [] = .error PyError.valueError
    ∧ ∃ r, analyze_data (α := ℤ) [5] [6] [7] = .ok r :=
  ⟨(analyze_data_error_conditions (α := ℤ)).1 [1, 2] [] []
      (by decide) (by decide) (by decide),
    (analyze_data_error_conditions (α := ℤ)).2 [5] [6] [7] rfl rfl⟩

/-- C9: every crossing index lies strictly below `len - 1`, so the record
construction never indexes out of bounds; inputs of length at most 1 give
the empty result. -/
theorem cross_indices_in_bounds {α : Type} [LinearOrderedRing α] :
    (∀ (V w : List α) (i : ℕ), V.length = w.length →
      i ∈ cross_indices (List.zipWith (fun a b => a - b) V w) → i < V.length - 1)
    ∧ (∀ V w t : List α, V.length = w.length → w.length = t.length →
      V.length ≤ 1 → analyze_data V w t = .ok []) := by
  constructor
  · intro V w i hlen hi
    have hb := mem_cross_indices_lt hi
    rwa [List.length_zipWith, ← hlen, min_self] at hb
  · intro V w t h1 h2 hle
    have hsub : npSub V w = .ok (List.zipWith (fun a b => a - b) V w) := by
      rw [npSub, if_pos h1]
    have hzero : (List.zipWith (fun a b => a - b) V w).length - 1 = 0 := by
      rw [List.length_zipWith, ← h1, min_self]
      omega
    rw [analyze_data, hsub]
    show collectPoints V w t (cross_indices (List.zipWith (fun a b => a - b) V w)) = _
    rw [cross_indices, hzero]
    rfl

/-- Witness for C9: the bound at a concrete crossing index, and the empty
result on length-1 inputs. -/
theorem cross_indices_in_bounds_witness :
    ((0 : ℕ) < List.length (α := ℤ) [1, 0] - 1)
    ∧ analyze_data (α := ℤ) [2] [3] [4] = .ok [] :=
  ⟨(cross_indices_in_bounds (α := ℤ)).1 [1, 0] [0, 1] 0 rfl (by decide),
    (cross_indices_in_bounds (α := ℤ)).2 [2] [3] [4] rfl rfl (by decide)⟩

theorem linspace_length (a b : ℝ) (n : ℕ) : (linspace a b n).length = n := by
  simp [linspace]

theorem linspace_getD (a b : ℝ) {n i : ℕ} (h : i < n) :
    (linspace a b n).getD i 0 = a + (b - a) * (i : ℝ) / ((n - 1 : ℕ) : ℝ) := by
  have hz : i < (linspace a b n).length := by rw [linspace_length]; exact h
  rw [List.getD_eq_getElem _ 0 hz]
  simp [linspace]

theorem linspace_pairwise {a b : ℝ} (hab : a < b) {n : ℕ} (hn : 2 ≤ n) :
    List.Pairwise (· < ·) (linspace a b n) := by
  unfold linspace
  refine List.Pairwise.map _ ?_ (List.pairwise_lt_range n)
  intro i j hij
  have hc : (0 : ℝ) < ((n - 1 : ℕ) : ℝ) := by
    have h1 : 1 ≤ n - 1 := by omega
    exact_mod_cast Nat.lt_of_lt_of_le Nat.zero_lt_one h1
  have hba : (0 : ℝ) < b - a := sub_pos.mpr hab
  have hij' : (i : ℝ) < (j : ℝ) := by exact_mod_cast hij
  have hnum : (b - a) * (i : ℝ) < (b - a) * (j : ℝ) :=
    mul_lt_mul_of_pos_left hij' hba
  exact add_lt_add_left (div_lt_div_of_pos_right hnum hc) a

set_option maxRecDepth 4000 in
/-- C3: under scipy's shape contract (one output row per requested time
point), the three arrays returned by `solve_model` all have length 10000;
the time array is `np.linspace(0, 5000, 10000)`, i.e. `t[i] =
5000*i/9999`, and is strictly increasing. -/
theorem solve_model_grid (odeint : Integrator)
    (hode : ∀ f y0 ts p, (odeint f y0 ts p).length = ts.length) (I_ext : ℝ) :
    (solve_model odeint I_ext).1.length = 10000
    ∧ (solve_model odeint I_ext).2.1.length = 10000
    ∧ (solve_model odeint I_ext).2.2.length = 10000
    ∧ (solve_model odeint I_ext).1 = linspace 0 5000 10000
    ∧ (∀ i : ℕ, i < 10000 →
        (solve_model odeint I_ext).1.getD i 0 = 5000 * (i : ℝ) / 9999)
    ∧ List.Pairwise (· < ·) (solve_model odeint I_ext).1 := by
  have hfst : (solve_model odeint I_ext).1 = linspace 0 5000 10000 := by
    simp only [solve_model]
  refine ⟨?_, ?_, ?_, hfst, ?_, ?_⟩
  · rw [hfst]
    exact linspace_length 0 5000 10000
  · show ((odeint morris_lecar _ _ _).map Prod.fst).length = 10000
    rw [List.length_map, hode, linspace_length]
  · show ((odeint morris_lecar _ _ _).map Prod.snd).length = 10000
    rw [List.length_map, hode, linspace_length]
  · intro i hi
    rw [hfst, linspace_getD 0 5000 hi]
    norm_num
  · rw [hfst]
    exact linspace_pairwise (by norm_num) (by norm_num)

/-- Witness for C3: the trivial integrator satisfies scipy's shape
contract, so the grid properties hold for it at `I_ext = 0`. -/
theorem solve_model_grid_witness :
    (solve_model constIntegrator 0).1.length = 10000
    ∧ (solve_model constIntegrator 0).2.1.length = 10000
    ∧ (solve_model constIntegrator 0).2.2.length = 10000
    ∧ (solve_model constIntegrator 0).1 = linspace 0 5000 10000
    ∧ (∀ i : ℕ, i < 10000 →
        (solve_model constIntegrator 0).1.getD i 0 = 5000 * (i : ℝ) / 9999)
    ∧ List.Pairwise (· < ·) (solve_model constIntegrator 0).1 :=
  solve_model_grid constIntegrator
    (fun _ y0 ts _ => by simp [constIntegrator]) 0

/-- Counterexample to C4: a non-converged lsoda run (`failedRunOutcome`
carries the solver's diagnostic message) still makes `solve_model` hand
the caller a full 10000-point trajectory: the call does not fail and the
solver output is returned as-is. -/
theorem solve_model_returns_on_failure_ce :
    (solve_modelOutcome failedRunOutcome 0.1).1 = linspace 0 5000 10000
    ∧ (solve_modelOutcome failedRunOutcome 0.1).2.1.length = 10000
    ∧ (solve_modelOutcome failedRunOutcome 0.1).2.2.length = 10000 := by
  have h1 : (solve_modelOutcome failedRunOutcome 0.1).1 = linspace 0 5000 10000 := by
    simp only [solve_modelOutcome, solve_model]
  have h2 : (solve_modelOutcome failedRunOutcome 0.1).2.1
      = (odeintReturnedArray failedRunOutcome).map Prod.fst := by
    simp only [solve_modelOutcome, solve_model]
  have h3 : (solve_modelOutcome failedRunOutcome 0.1).2.2
      = (odeintReturnedArray failedRunOutcome).map Prod.snd := by
    simp only [solve_modelOutcome, solve_model]
  have hret : odeintReturnedArray failedRunOutcome
      = (linspace 0 5000 10000).map
          (fun _ => (default_parameters.V0, default_parameters.w0)) := by
    simp only [failedRunOutcome, odeintReturnedArray]
  have harr : (odeintReturnedArray failedRunOutcome).length = 10000 := by
    rw [hret, List.length_map, linspace_length]
  exact ⟨h1, by rw [h2, List.length_map, harr], by rw [h3, List.length_map, harr]⟩

/-- C4 as amended: `solve_model` performs no error handling at all: a
failed solver outcome is indistinguishable from a converged outcome with
the same array — the diagnostic is dropped and the array is returned to
the caller as the trajectory. -/
theorem solve_model_ignores_solver_diagnostics (diag : String)
    (tab : List (ℝ × ℝ)) (I_ext : ℝ) :
    solve_modelOutcome (SolverOutcome.fail diag tab) I_ext
      = solve_modelOutcome (SolverOutcome.ok tab) I_ext
    ∧ (solve_modelOutcome (SolverOutcome.fail diag tab) I_ext).2.1
      = tab.map Prod.fst
    ∧ (solve_modelOutcome (SolverOutcome.fail diag tab) I_ext).2.2
      = tab.map Prod.snd := by
  refine ⟨rfl, ?_, ?_⟩ <;>
    simp only [solve_modelOutcome, solve_model, odeintReturnedArray]

/-- C7: the parameter record that `solve_model` passes to the integrator
is `solveModelParams I_ext`: the default template with only `I_ext`
overridden, every other field unchanged. -/
theorem solveModelParams_frame (I_ext : ℝ) :
    (∀ odeint : Integrator, solve_model odeint I_ext =
      (linspace 0 5000 10000,
        ((odeint morris_lecar ((solveModelParams I_ext).V0, (solveModelParams I_ext).w0)
          (linspace 0 5000 10000) (solveModelParams I_ext)).map Prod.fst),
        ((odeint morris_lecar ((solveModelParams I_ext).V0, (solveModelParams I_ext).w0)
          (linspace 0 5000 10000) (solveModelParams I_ext)).map Prod.snd)))
    ∧ (solveModelParams I_ext).I_ext = I_ext
    ∧ (solveModelParams I_ext).C = default_parameters.C
    ∧ (solveModelParams I_ext).V_Ca = default_parameters.V_Ca
    ∧ (solveModelParams I_ext).V_K = default_parameters.V_K
    ∧ (solveModelParams I_ext).V_L = default_parameters.V_L
    ∧ (solveModelParams I_ext).g_Ca = default_parameters.g_Ca
    ∧ (solveModelParams I_ext).g_K = default_parameters.g_K
    ∧ (solveModelParams I_ext).g_L = default_parameters.g_L
    ∧ (solveModelParams I_ext).phi = default_parameters.phi
    ∧ (solveModelParams I_ext).V1 = default_parameters.V1
    ∧ (solveModelParams I_ext).V2 = default_parameters.V2
    ∧ (solveModelParams I_ext).V3 = default_parameters.V3
    ∧ (solveModelParams I_ext).V4 = default_parameters.V4
    ∧ (solveModelParams I_ext).V0 = default_parameters.V0
    ∧ (solveModelParams I_ext).w0 = default_parameters.w0 :=
  ⟨fun odeint => rfl, rfl, rfl, rfl, rfl, rfl, rfl, rfl, rfl, rfl, rfl, rfl,
    rfl, rfl, rfl, rfl⟩

/-- C10: the default initial conditions are `V0 = -70*10⁻³ = -0.07`
(volts) and `w0 = 0`, so `solve_model` integrates from exactly
`(-0.07, 0)` for every `I_ext`, while the default voltage parameters are
millivolt-scale numbers (`V_Ca = 120`, `V_K = -84`, `V_L = -60`,
`V1 = -1.2`, `V2 = 18`, `V3 = 2`, `V4 = 30`). -/
theorem default_initial_conditions :
    default_parameters.V0 = -70 * (10 : ℝ) ^ (-3 : ℤ)
    ∧ default_parameters.V0 = -0.07
    ∧ default_parameters.w0 = 0
    ∧ (∀ I_ext : ℝ,
        ((solveModelParams I_ext).V0, (solveModelParams I_ext).w0)
          = ((-0.07 : ℝ), (0 : ℝ)))
    ∧ default_parameters.V_Ca = 120
    ∧ default_parameters.V_K = -84
    ∧ default_parameters.V_L = -60
    ∧ default_parameters.V1 = -1.2
    ∧ default_parameters.V2 = 18
    ∧ default_parameters.V3 = 2
    ∧ default_parameters.V4 = 30 := by
  have hV0 : default_parameters.V0 = -0.07 := by
    show -70 * (10 : ℝ) ^ (-3 : ℤ) = -0.07
    norm_num
  have hw0 : default_parameters.w0 = 0 := by
    show (0.0 : ℝ) = 0
    norm_num
  refine ⟨rfl, hV0, hw0, ?_, rfl, rfl, rfl, rfl, rfl, rfl, rfl⟩
  intro I_ext
  rw [show (solveModelParams I_ext).V0 = default_parameters.V0 from rfl,
    show (solveModelParams I_ext).w0 = default_parameters.w0 from rfl, hV0, hw0]
